import Mathlib

set_option maxHeartbeats 1000000

/-!
Shallow embedding of `src/server.py`, the SilentChat websocket relay server.

The embedding covers the parts the session protocol exercises:
the live connection registry (`rooms_live`, a dict from room id to a dict from
client id to websocket), the database helpers (`db_ok`,
`db_upsert_user_room_membership`, `db_save_message`, `db_load_history`) and the
websocket session handler (`ws_endpoint`).

Modelling decisions:
* Python dicts become insertion-ordered association lists (`alSet` overwrites
  in place, `alErase` is `pop`), matching dict semantics: unique keys,
  insertion order preserved, overwrite keeps the position.
* A websocket connection handle is an opaque `Nat`.
* `uuid.uuid4()` and the `created_at` column default become a per-database
  counter `nextId`: the model only needs freshness of ids and monotonicity of
  timestamps, which the counter supplies.
* The database and its `db_ok` probe are external: each guarded database
  occasion consults an oracle `DbEnv` telling whether `db_ok()` returned
  `True` and whether the guarded operation raised. `try/except` around an
  operation that raises leaves the database unchanged (the transaction is
  never committed).
* Sends (`safe_send`) are logged in an outbox as (handle, payload) pairs, in
  the order the server awaits them; explicit `ws.close(code)` calls are
  logged in `closes`.
* An inbound text frame either parses as a JSON object (`Frame.obj`) or does
  not (`Frame.malformed`, covering both a JSON parse error and a JSON value
  that is not an object, which makes `hello.get(...)` raise). A session whose
  frame list runs out models the client disconnecting (`WebSocketDisconnect`).
-/

/-- Fields of an inbound JSON object that `server.py` reads via `msg.get(...)`.
The JSON key `from` is modelled by the field `sender` (`from` is a Lean
keyword); `extra` stands for any additional keys, which the server never
inspects but does forward verbatim. A missing key reads as `none`. -/
structure Msg where
  type : Option String
  room : Option String
  client_id : Option String
  to_id : Option String
  sender : Option String
  msg_type : Option String
  iv : Option String
  ciphertext : Option String
  extra : List (String × String)
deriving DecidableEq

/-- The message with no keys at all. -/
def emptyMsg : Msg :=
  { type := none, room := none, client_id := none, to_id := none, sender := none,
    msg_type := none, iv := none, ciphertext := none, extra := [] }

/-- One inbound text frame, as seen after `json.loads`. -/
inductive Frame
  | malformed
  | obj (m : Msg)
deriving DecidableEq

/-- A history entry as built by `db_load_history` (dict keys renamed, the
timestamp stringified). The JSON key `from` is the field `sender`. -/
structure HistEntry where
  id : Nat
  room : String
  sender : Option String
  to_id : Option String
  msg_type : String
  iv : Option String
  ciphertext : Option String
  created_at : String
deriving DecidableEq

/-- An outbound payload handed to `safe_send`. -/
inductive OutMsg
  | joined (room client_id : String)
  | roster (room : String) (clients : List String)
  | history (room : String) (messages : List HistEntry)
  | pong
  | forward (m : Msg)
deriving DecidableEq

/-- Test whether an outbound payload is a `history` event. -/
def OutMsg.isHistory : OutMsg → Bool
  | OutMsg.history _ _ => true
  | _ => false

/-- Python truthiness of an optional string: `None` and `""` are falsy. -/
def truthy : Option String → Bool
  | none => false
  | some s => !(decide (s = ""))

/-! Association lists standing in for Python dicts. -/

/-- First-match lookup, `d.get(k)` / `k in d`. -/
def alLookup {α : Type} (k : String) : List (String × α) → Option α
  | [] => none
  | (k', v) :: rest => if k' = k then some v else alLookup k rest

/-- Insert or overwrite in place, `d[k] = v` (keeps a present key's position,
appends a new key at the end, as Python dicts do). -/
def alSet {α : Type} (k : String) (v : α) : List (String × α) → List (String × α)
  | [] => [(k, v)]
  | (k', v') :: rest => if k' = k then (k, v) :: rest else (k', v') :: alSet k v rest

/-- Remove a key if present, `d.pop(k, None)`. -/
def alErase {α : Type} (k : String) : List (String × α) → List (String × α)
  | [] => []
  | (k', v') :: rest => if k' = k then rest else (k', v') :: alErase k rest

/-- One room's table of live members: client id to websocket handle. -/
abbrev RoomTable := List (String × Nat)

/-- The module-level `rooms_live` dict: room id to member table. -/
abbrev Registry := List (String × RoomTable)

/-- The two dict operations the join path performs:
`rooms_live.setdefault(room_id, {})` then `rooms_live[room_id][client_id] = ws`. -/
def registerConn (reg : Registry) (room_id client_id : String) (ws : Nat) : Registry :=
  let table := (alLookup room_id reg).getD []
  alSet room_id (alSet client_id ws table) reg

/-- Resolve a relay target: `to_id in rooms_live.get(room_id, {})` and then
`rooms_live[room_id][to_id]`. -/
def lookupConn (reg : Registry) (room_id client_id : String) : Option Nat :=
  match alLookup room_id reg with
  | some table => alLookup client_id table
  | none => none

/-- The `finally` block of `ws_endpoint`:
`if room_id and client_id and room_id in rooms_live:` pop the client, and pop
the room if its table became empty. `room_id`/`client_id` are the values the
handler had assigned when the exit happened (`None` before assignment). -/
def cleanup (reg : Registry) (room_id client_id : Option String) : Registry :=
  match room_id, client_id with
  | some r, some c =>
    if truthy (some r) && truthy (some c) then
      match alLookup r reg with
      | some table =>
        if (alErase c table).isEmpty then alErase r reg
        else alSet r (alErase c table) reg
      | none => reg
    else reg
  | _, _ => reg

/-! The database model. -/

/-- One row of the `messages` table. `id` and `created_at` are both drawn from
the database counter: ids are fresh and timestamps strictly increase in
insertion order. -/
structure StoredMsg where
  id : Nat
  room_id : String
  sender_id : Option String
  receiver_id : Option String
  msg_type : String
  iv_b64 : Option String
  ciphertext_b64 : Option String
  created_at : Nat
deriving DecidableEq

/-- The relational store: the `messages` table in insertion order, the
`room_members` table, and the fresh-id / timestamp counter. -/
structure DbState where
  messages : List StoredMsg
  room_members : List (String × String)
  nextId : Nat
deriving DecidableEq

/-- The empty database. -/
def emptyDb : DbState := { messages := [], room_members := [], nextId := 0 }

/-- What the external database does at one guarded occasion: the result of the
`db_ok()` probe, and whether the guarded operation would raise if attempted. -/
structure DbProbe where
  ok : Bool
  opRaises : Bool
deriving DecidableEq

/-- The guarded operation takes effect iff `db_ok()` returned `True` and the
operation did not raise (a raise is caught and the transaction never commits). -/
def probeEffective (p : DbProbe) : Bool := p.ok && !p.opRaises

/-- An oracle giving the probe outcome of the n-th guarded database occasion
of the process. -/
def DbEnv : Type := Nat → DbProbe

/-- The always-healthy database oracle. -/
def envOk : DbEnv := fun _ => { ok := true, opRaises := false }

/-- The oracle of a database that is down at every occasion. -/
def envDown : DbEnv := fun _ => { ok := false, opRaises := false }

/-- Mirror of `db_upsert_user_room_membership`: `INSERT IGNORE` into
`room_members` (the `users` and `rooms` inserts are the same idempotent
pattern and are subsumed by the membership row). -/
def db_upsert_user_room_membership (db : DbState) (room_id client_id : String) : DbState :=
  if (room_id, client_id) ∈ db.room_members then db
  else { db with room_members := db.room_members ++ [(room_id, client_id)] }

/-- Mirror of `db_save_message`: generate a fresh id (`uuid.uuid4()`), insert
the row; `created_at` is assigned by the server at insertion time. -/
def db_save_message (db : DbState) (room_id : String) (sender_id receiver_id : Option String)
    (msg_type : String) (iv_b64 ciphertext_b64 : Option String) : DbState :=
  { db with
    messages := db.messages ++
      [{ id := db.nextId, room_id := room_id, sender_id := sender_id,
         receiver_id := receiver_id, msg_type := msg_type, iv_b64 := iv_b64,
         ciphertext_b64 := ciphertext_b64, created_at := db.nextId }],
    nextId := db.nextId + 1 }

/-- The `WHERE` clause of `db_load_history`: room matches and
(`receiver_id IS NULL OR receiver_id = :client OR sender_id = :client`). -/
def msgQualifies (room_id client_id : String) (m : StoredMsg) : Prop :=
  m.room_id = room_id ∧
    (m.receiver_id = none ∨ m.receiver_id = some client_id ∨ m.sender_id = some client_id)

instance (room_id client_id : String) (m : StoredMsg) :
    Decidable (msgQualifies room_id client_id m) := by
  unfold msgQualifies
  infer_instance

/-- Insert one row into a list already sorted by `created_at` descending. -/
def insertDesc (m : StoredMsg) : List StoredMsg → List StoredMsg
  | [] => [m]
  | x :: xs => if x.created_at ≤ m.created_at then m :: x :: xs else x :: insertDesc m xs

/-- Sort rows by `created_at` descending: the `ORDER BY created_at DESC` of
`db_load_history`. -/
def sortDesc : List StoredMsg → List StoredMsg
  | [] => []
  | x :: xs => insertDesc x (sortDesc xs)

/-- The row-to-dict conversion at the end of `db_load_history`. -/
def toEntry (m : StoredMsg) : HistEntry :=
  { id := m.id, room := m.room_id, sender := m.sender_id, to_id := m.receiver_id,
    msg_type := m.msg_type, iv := m.iv_b64, ciphertext := m.ciphertext_b64,
    created_at := toString m.created_at }

/-- Mirror of `db_load_history`: filter by room and visibility, order by
`created_at DESC`, take `limit` rows (`LIMIT :lim`), then `rows.reverse()` and
convert each row to its dict shape. The Python default for `limit` is 50 and
the only call site uses it. -/
def db_load_history (table : List StoredMsg) (room_id client_id : String) (limit : Nat) :
    List HistEntry :=
  let rows := (sortDesc (table.filter (fun m => decide (msgQualifies room_id client_id m)))).take limit
  rows.reverse.map toEntry

/-! The websocket session handler. -/

/-- Everything a session run can observe or mutate: the live registry, the
database, the log of `safe_send` calls (handle, payload), the log of explicit
`ws.close(code)` calls (handle, code), and the count of guarded database
occasions so far (the index into the `DbEnv` oracle). -/
structure World where
  reg : Registry
  db : DbState
  outbox : List (Nat × OutMsg)
  closes : List (Nat × Nat)
  dbCalls : Nat
deriving DecidableEq

/-- A fresh process: empty registry, empty database, nothing sent. -/
def W0 : World :=
  { reg := [], db := emptyDb, outbox := [], closes := [], dbCalls := 0 }

/-- How a session run ended. -/
inductive ExitKind
  | policyClosed
  | wsError
  | disconnect
deriving DecidableEq

/-- One iteration of the `while True` dispatch loop of `ws_endpoint` on a
parsed frame `m`, for the session of `ws` joined to `room_id` as `client_id`. -/
def routeFrame (env : DbEnv) (ws : Nat) (room_id client_id : String) (m : Msg)
    (w : World) : World :=
  if m.type = some "pubkey" then
    match m.to_id with
    | some t =>
      match lookupConn w.reg room_id t with
      | some sock => { w with outbox := w.outbox ++ [(sock, OutMsg.forward m)] }
      | none => w
    | none => w
  else if m.type = some "cipher" then
    let p := env w.dbCalls
    let w1 : World := { w with dbCalls := w.dbCalls + 1 }
    let w2 : World :=
      if probeEffective p then
        { w1 with db := db_save_message w1.db room_id m.sender m.to_id
                    (m.msg_type.getD "unknown") m.iv m.ciphertext }
      else w1
    match m.to_id with
    | some t =>
      match lookupConn w2.reg room_id t with
      | some sock => { w2 with outbox := w2.outbox ++ [(sock, OutMsg.forward m)] }
      | none => w2
    | none => w2
  else if m.type = some "ping" then
    { w with outbox := w.outbox ++ [(ws, OutMsg.pong)] }
  else w

/-- The join sequence of `ws_endpoint` after a valid join frame: register the
connection, best-effort persist membership, send `joined`, broadcast `roster`
to every live connection of the room, best-effort load history, send
`history` to the new connection. -/
def joinPhase (env : DbEnv) (ws : Nat) (room_id client_id : String) (w : World) : World :=
  let reg1 := registerConn w.reg room_id client_id ws
  let p1 := env w.dbCalls
  let db1 := if probeEffective p1 then db_upsert_user_room_membership w.db room_id client_id
    else w.db
  let table := (alLookup room_id reg1).getD []
  let roster := table.map Prod.fst
  let p2 := env (w.dbCalls + 1)
  let hist := if probeEffective p2 then db_load_history db1.messages room_id client_id 50 else []
  { reg := reg1, db := db1,
    outbox := w.outbox
      ++ [(ws, OutMsg.joined room_id client_id)]
      ++ table.map (fun kv => (kv.2, OutMsg.roster room_id roster))
      ++ [(ws, OutMsg.history room_id hist)],
    closes := w.closes,
    dbCalls := w.dbCalls + 2 }

/-- The `while True` loop: dispatch parsed frames in arrival order until the
stream ends (`WebSocketDisconnect`) or a frame fails to parse (the generic
`except Exception` path). -/
def sessionLoop (env : DbEnv) (ws : Nat) (room_id client_id : String) :
    List Frame → World → World × ExitKind
  | [], w => (w, ExitKind.disconnect)
  | Frame.malformed :: _, w => (w, ExitKind.wsError)
  | Frame.obj m :: rest, w => sessionLoop env ws room_id client_id rest
      (routeFrame env ws room_id client_id m w)

/-- Mirror of `ws_endpoint`: validate the first frame as a join, run the join
sequence and the dispatch loop, and on every exit path run the `finally`
cleanup with whatever `room_id`/`client_id` were assigned at that point.
Only the two policy branches call `ws.close(code=1008)`; the malformed-frame
path is caught by the generic handler and sends no close code. -/
def ws_endpoint (env : DbEnv) (ws : Nat) (frames : List Frame) (w : World) :
    World × ExitKind :=
  match frames with
  | [] =>
    ({ w with reg := cleanup w.reg none none }, ExitKind.disconnect)
  | Frame.malformed :: _ =>
    ({ w with reg := cleanup w.reg none none }, ExitKind.wsError)
  | Frame.obj hello :: rest =>
    if hello.type ≠ some "join" then
      ({ w with closes := w.closes ++ [(ws, 1008)], reg := cleanup w.reg none none },
        ExitKind.policyClosed)
    else if truthy hello.room && truthy hello.client_id then
      match hello.room, hello.client_id with
      | some r, some c =>
        let w1 := joinPhase env ws r c w
        let res := sessionLoop env ws r c rest w1
        ({ res.1 with reg := cleanup res.1.reg (some r) (some c) }, res.2)
      | _, _ =>
        -- unreachable: `truthy` forces both fields to be present
        (w, ExitKind.disconnect)
    else
      ({ w with closes := w.closes ++ [(ws, 1008)],
                reg := cleanup w.reg hello.room hello.client_id },
        ExitKind.policyClosed)

/-! Derived definitions used to state the claims, and concrete inputs used by
the witnesses. -/

/-- The row `db_save_message` inserts for a cipher frame `m` that arrives in
`room_id` while the database state is `db`. -/
def savedRow (db : DbState) (room_id : String) (m : Msg) : StoredMsg :=
  { id := db.nextId, room_id := room_id, sender_id := m.sender,
    receiver_id := m.to_id, msg_type := m.msg_type.getD "unknown",
    iv_b64 := m.iv, ciphertext_b64 := m.ciphertext, created_at := db.nextId }

/-- The rows satisfying the `WHERE` clause of the history query, in
chronological (insertion) order. -/
def qualifying (table : List StoredMsg) (room_id client_id : String) : List StoredMsg :=
  table.filter (fun m => decide (msgQualifies room_id client_id m))

/-- The most recent `limit` entries of a chronologically ascending list, kept
in ascending order. -/
def lastN (limit : Nat) (l : List StoredMsg) : List StoredMsg :=
  (l.reverse.take limit).reverse

/-- Timestamps ascend strictly along a stored message list (true of every
database `db_save_message` can produce, since `created_at` is drawn from the
increasing counter). -/
def CreatedAsc (table : List StoredMsg) : Prop :=
  table.Pairwise (fun a b => a.created_at < b.created_at)

/-- Every stored id and timestamp is below the counter, so the next id is
fresh and the next timestamp is the latest. -/
def IdsFresh (db : DbState) : Prop :=
  ∀ s ∈ db.messages, s.id < db.nextId ∧ s.created_at < db.nextId

/-- Registry invariant: a room entry always holds at least one member. -/
def regGood (reg : Registry) : Prop := ∀ p ∈ reg, p.2 ≠ []

/-- Registry well-formedness inherited from Python dicts: room keys are
unique, and client keys are unique within each room table. -/
def regWF (reg : Registry) : Prop :=
  (reg.map Prod.fst).Nodup ∧ ∀ p ∈ reg, (p.2.map Prod.fst).Nodup

/-- Stated behaviour of the router on a `cipher` frame (claim C1): best-effort
persistence of a fresh row regardless of target liveness, registry untouched,
and forwarding of the original payload exactly when the target is live in the
sender's room. -/
def cipherBehaviour (env : DbEnv) (ws : Nat) (room_id client_id : String) (m : Msg)
    (w : World) : Prop :=
  (probeEffective (env w.dbCalls) = true →
      (routeFrame env ws room_id client_id m w).db.messages
          = w.db.messages ++ [savedRow w.db room_id m]
    ∧ (routeFrame env ws room_id client_id m w).db.room_members = w.db.room_members
    ∧ ∀ s ∈ w.db.messages,
        s.id ≠ (savedRow w.db room_id m).id
          ∧ s.created_at < (savedRow w.db room_id m).created_at)
  ∧ (probeEffective (env w.dbCalls) = false →
      (routeFrame env ws room_id client_id m w).db = w.db)
  ∧ (routeFrame env ws room_id client_id m w).reg = w.reg
  ∧ (∀ t sock, m.to_id = some t → lookupConn w.reg room_id t = some sock →
      (routeFrame env ws room_id client_id m w).outbox
          = w.outbox ++ [(sock, OutMsg.forward m)])
  ∧ (∀ t, m.to_id = some t → lookupConn w.reg room_id t = none →
      (routeFrame env ws room_id client_id m w).outbox = w.outbox)
  ∧ (m.to_id = none → (routeFrame env ws room_id client_id m w).outbox = w.outbox)

/-- Stated behaviour of the history load (claim C2): the result is exactly the
most recent `limit` qualifying rows in their dict shape, a suffix of the
chronologically ascending qualifying list, capped at `limit` entries, oldest
first. -/
def historyLoadSpec (table : List StoredMsg) (room_id client_id : String) (limit : Nat) : Prop :=
  db_load_history table room_id client_id limit
      = (lastN limit (qualifying table room_id client_id)).map toEntry
  ∧ (lastN limit (qualifying table room_id client_id)).IsSuffix
      (qualifying table room_id client_id)
  ∧ (db_load_history table room_id client_id limit).length
      = min limit (qualifying table room_id client_id).length
  ∧ CreatedAsc (lastN limit (qualifying table room_id client_id))

/-- Stated behaviour of an invalid join (claim C3): close with 1008, register
nothing, persist nothing, send nothing, process no further frames. -/
def invalidJoinSpec (env : DbEnv) (ws : Nat) (hello : Msg) (rest : List Frame)
    (w : World) : Prop :=
  (ws_endpoint env ws (Frame.obj hello :: rest) w).1.reg = w.reg
  ∧ (ws_endpoint env ws (Frame.obj hello :: rest) w).1.db = w.db
  ∧ (ws_endpoint env ws (Frame.obj hello :: rest) w).1.outbox = w.outbox
  ∧ (ws_endpoint env ws (Frame.obj hello :: rest) w).1.closes = w.closes ++ [(ws, 1008)]
  ∧ (ws_endpoint env ws (Frame.obj hello :: rest) w).2 = ExitKind.policyClosed
  ∧ (∀ rest', ws_endpoint env ws (Frame.obj hello :: rest) w
        = ws_endpoint env ws (Frame.obj hello :: rest') w)
  ∧ (∀ r c, lookupConn w.reg r c = none →
        lookupConn (ws_endpoint env ws (Frame.obj hello :: rest) w).1.reg r c = none)

/-- Stated behaviour of a valid join (claim C4): the connection is registered,
and the outbox grows by a `joined` to the caller, a `roster` carrying the full
member list to every live connection of the room (including the new arrival),
and finally one `history` sent only to the caller, in that order; the caller's
first three outbound events are `joined`, `roster`, `history`. -/
def joinSequenceSpec (env : DbEnv) (ws : Nat) (r c : String) (hello : Msg)
    (rest : List Frame) (w : World) : Prop :=
  lookupConn (joinPhase env ws r c w).reg r c = some ws
  ∧ (c, ws) ∈ alSet c ws ((alLookup r w.reg).getD [])
  ∧ (∃ hist,
      (joinPhase env ws r c w).outbox
          = (ws, OutMsg.joined r c)
            :: ((alSet c ws ((alLookup r w.reg).getD [])).map
                (fun kv => (kv.2,
                  OutMsg.roster r ((alSet c ws ((alLookup r w.reg).getD [])).map Prod.fst)))
              ++ [(ws, OutMsg.history r hist)])
    ∧ (∀ kv ∈ alSet c ws ((alLookup r w.reg).getD []),
        (kv.2, OutMsg.roster r ((alSet c ws ((alLookup r w.reg).getD [])).map Prod.fst))
          ∈ (joinPhase env ws r c w).outbox)
    ∧ ((joinPhase env ws r c w).outbox.filter (fun p => decide (p.1 = ws))).map Prod.snd
        = [OutMsg.joined r c,
           OutMsg.roster r ((alSet c ws ((alLookup r w.reg).getD [])).map Prod.fst),
           OutMsg.history r hist]
    ∧ (joinPhase env ws r c w).outbox.filter (fun p => (p.2).isHistory)
        = [(ws, OutMsg.history r hist)])
  ∧ ws_endpoint env ws (Frame.obj hello :: rest) w
      = (let res := sessionLoop env ws r c rest (joinPhase env ws r c w)
        ({ res.1 with reg := cleanup res.1.reg (some r) (some c) }, res.2))

/-- Stated behaviour of the router on a `pubkey` frame (claim C5): nothing is
persisted and no database occasion is consumed, and the entire inbound
payload is forwarded verbatim exactly when the target is live in the sender's
room, otherwise silently dropped. -/
def pubkeyBehaviour (env : DbEnv) (ws : Nat) (room_id client_id : String) (m : Msg)
    (w : World) : Prop :=
  (routeFrame env ws room_id client_id m w).db = w.db
  ∧ (routeFrame env ws room_id client_id m w).dbCalls = w.dbCalls
  ∧ (routeFrame env ws room_id client_id m w).reg = w.reg
  ∧ (routeFrame env ws room_id client_id m w).closes = w.closes
  ∧ (∀ t sock, m.to_id = some t → lookupConn w.reg room_id t = some sock →
      (routeFrame env ws room_id client_id m w).outbox
          = w.outbox ++ [(sock, OutMsg.forward m)])
  ∧ (∀ t, m.to_id = some t → lookupConn w.reg room_id t = none →
      (routeFrame env ws room_id client_id m w).outbox = w.outbox)
  ∧ (m.to_id = none → (routeFrame env ws room_id client_id m w).outbox = w.outbox)

/-- Stated registry lifecycle (claim C6): registration keeps every room entry
nonempty and creates the room on first join; the exit path keeps the
invariant, is a no-op on an absent pair, and removes the room entry when the
last member leaves. -/
def registryGcSpec (reg : Registry) (r c : String) (hdl : Nat) : Prop :=
  regGood (registerConn reg r c hdl)
  ∧ (∀ a b, regGood (cleanup reg a b))
  ∧ (alLookup r reg = none → alLookup r (registerConn reg r c hdl) = some [(c, hdl)])
  ∧ (alLookup r reg = none → cleanup reg (some r) (some c) = reg)
  ∧ (∀ table, alLookup r reg = some table → (∀ p ∈ table, p.1 ≠ c) →
      cleanup reg (some r) (some c) = reg)
  ∧ (r ≠ "" → c ≠ "" → alLookup r reg = some [(c, hdl)] →
      alLookup r (cleanup reg (some r) (some c)) = none)
  ∧ (r ≠ "" → c ≠ "" →
      lookupConn (cleanup reg (some r) (some c)) r c = none
    ∧ (∀ c', c' ≠ c → lookupConn (cleanup reg (some r) (some c)) r c'
        = lookupConn reg r c')
    ∧ (∀ r' c', r' ≠ r → lookupConn (cleanup reg (some r) (some c)) r' c'
        = lookupConn reg r' c'))

/-- Stated degradation under storage failure (claim C7): with every probe
failing, a join still registers the connection and still sends `joined`, the
roster broadcast, and a `history` event carrying the empty list, while the
database is untouched; a `cipher` frame is not recorded but still forwarded
to a live target; and the way a session exits never depends on the database
oracle. -/
def storageFailureSpec (env env2 : DbEnv) (ws : Nat) (r c : String) (m : Msg)
    (frames : List Frame) (w : World) : Prop :=
  (joinPhase env ws r c w).db = w.db
  ∧ (joinPhase env ws r c w).reg = registerConn w.reg r c ws
  ∧ (joinPhase env ws r c w).outbox
      = w.outbox ++ [(ws, OutMsg.joined r c)]
        ++ ((alLookup r (registerConn w.reg r c ws)).getD []).map
            (fun kv => (kv.2,
              OutMsg.roster r (((alLookup r (registerConn w.reg r c ws)).getD []).map Prod.fst)))
        ++ [(ws, OutMsg.history r [])]
  ∧ (routeFrame env ws r c m w).db = w.db
  ∧ (∀ t sock, m.to_id = some t → lookupConn w.reg r t = some sock →
      (routeFrame env ws r c m w).outbox = w.outbox ++ [(sock, OutMsg.forward m)])
  ∧ (ws_endpoint env ws frames w).2 = (ws_endpoint env2 ws frames w).2

/-- Stated consequence of the identity-blind exit path (claim C9): after a
second join overwrites the handle for (room, client), the first session's
cleanup removes whatever handle is mapped, so the second, still-open
connection disappears from the registry. -/
def staleCleanupSpec (reg : Registry) (r c : String) (h1 h2 : Nat) : Prop :=
  lookupConn (registerConn (registerConn reg r c h1) r c h2) r c = some h2
  ∧ lookupConn (cleanup (registerConn (registerConn reg r c h1) r c h2) (some r) (some c))
      r c = none

/-- Stated behaviour of a `cipher` frame without a `to` key (claim C10): it is
forwarded to no connection at all, and (best-effort) persisted with an absent
receiver, which makes the row qualify for every client of the room in a later
history load. -/
def broadcastCipherSpec (env : DbEnv) (ws : Nat) (room_id client_id : String) (m : Msg)
    (w : World) : Prop :=
  (routeFrame env ws room_id client_id m w).outbox = w.outbox
  ∧ (probeEffective (env w.dbCalls) = true →
      (routeFrame env ws room_id client_id m w).db.messages
          = w.db.messages ++ [savedRow w.db room_id m]
    ∧ (savedRow w.db room_id m).receiver_id = none
    ∧ ∀ x, msgQualifies room_id x (savedRow w.db room_id m))
  ∧ (probeEffective (env w.dbCalls) = false →
      (routeFrame env ws room_id client_id m w).db = w.db)

instance (table : List StoredMsg) : Decidable (CreatedAsc table) := by
  unfold CreatedAsc
  infer_instance

instance (db : DbState) : Decidable (IdsFresh db) := by
  unfold IdsFresh
  infer_instance

instance (reg : Registry) : Decidable (regGood reg) := by
  unfold regGood
  infer_instance

instance (reg : Registry) : Decidable (regWF reg) := by
  unfold regWF
  infer_instance

/-! Concrete inputs used by the witnesses. -/

/-- A valid join frame: client A joining room R1. -/
def helloA : Msg :=
  { emptyMsg with type := some "join", room := some "R1", client_id := some "A" }

/-- A first frame whose tag is not `join`. -/
def helloBadTag : Msg := { emptyMsg with type := some "ping" }

/-- A cipher frame from A to B. -/
def cipherAB : Msg :=
  { emptyMsg with
    type := some "cipher", sender := some "A", to_id := some "B",
    msg_type := some "text", iv := some "iv0", ciphertext := some "ct0" }

/-- A cipher frame with no `to` key (room-visible). -/
def cipherBroadcast : Msg :=
  { emptyMsg with
    type := some "cipher", sender := some "A",
    msg_type := some "text", iv := some "iv1", ciphertext := some "ct1" }

/-- A pubkey frame from A to B carrying an opaque payload. -/
def pubkeyAB : Msg :=
  { emptyMsg with type := some "pubkey", to_id := some "B", extra := [("key", "k0")] }

/-- A registry with clients B (handle 5) and Z (handle 9) live in room R1. -/
def regR1 : Registry := [("R1", [("B", 5), ("Z", 9)])]

/-- A world in which B and Z are live in R1 and nothing has been sent. -/
def W1 : World := { W0 with reg := regR1 }

/-- Three stored rows used by the history witness: a broadcast row, a row
addressed to X, and a row between two other parties. -/
def sampleTable : List StoredMsg :=
  [ { id := 0, room_id := "R1", sender_id := some "A", receiver_id := none,
      msg_type := "text", iv_b64 := some "i0", ciphertext_b64 := some "c0",
      created_at := 0 },
    { id := 1, room_id := "R1", sender_id := some "A", receiver_id := some "X",
      msg_type := "text", iv_b64 := some "i1", ciphertext_b64 := some "c1",
      created_at := 1 },
    { id := 2, room_id := "R1", sender_id := some "A", receiver_id := some "B",
      msg_type := "text", iv_b64 := some "i2", ciphertext_b64 := some "c2",
      created_at := 2 } ]

/-! Helper lemmas about the association-list dict operations. -/

theorem alLookup_alSet_self {α : Type} (k : String) (v : α) (l : List (String × α)) :
    alLookup k (alSet k v l) = some v := by
  induction l with
  | nil => simp [alSet, alLookup]
  | cons p rest ih =>
    obtain ⟨k1, v1⟩ := p
    by_cases h : k1 = k
    · simp [alSet, h, alLookup]
    · simp [alSet, h, alLookup, ih]

theorem alLookup_alSet_ne {α : Type} (k k' : String) (v : α) (l : List (String × α))
    (h : k' ≠ k) : alLookup k' (alSet k v l) = alLookup k' l := by
  have hne : ¬ k = k' := fun hh => h hh.symm
  induction l with
  | nil => simp [alSet, alLookup, hne]
  | cons p rest ih =>
    obtain ⟨k1, v1⟩ := p
    by_cases hk : k1 = k
    · subst hk
      simp [alSet, alLookup, hne]
    · simp [alSet, hk, alLookup, ih]

theorem alSet_of_lookup_eq {α : Type} (k : String) (v : α) (l : List (String × α))
    (h : alLookup k l = some v) : alSet k v l = l := by
  induction l with
  | nil => simp [alLookup] at h
  | cons p rest ih =>
    obtain ⟨k1, v1⟩ := p
    by_cases hk : k1 = k
    · subst hk
      simp [alLookup] at h
      simp [alSet, h]
    · simp [alLookup, hk] at h
      simp [alSet, hk, ih h]

theorem alErase_of_forall_ne {α : Type} (k : String) (l : List (String × α))
    (h : ∀ p ∈ l, p.1 ≠ k) : alErase k l = l := by
  induction l with
  | nil => simp [alErase]
  | cons p rest ih =>
    obtain ⟨k1, v1⟩ := p
    have h1 : k1 ≠ k := h (k1, v1) (by simp)
    simp [alErase, h1]
    exact ih fun q hq => h q (by simp [hq])

theorem alLookup_eq_none_of_forall_ne {α : Type} (k : String) (l : List (String × α))
    (h : ∀ p ∈ l, p.1 ≠ k) : alLookup k l = none := by
  induction l with
  | nil => simp [alLookup]
  | cons p rest ih =>
    obtain ⟨k1, v1⟩ := p
    have h1 : k1 ≠ k := h (k1, v1) (by simp)
    simp [alLookup, h1]
    exact ih fun q hq => h q (by simp [hq])

theorem alLookup_alErase_self {α : Type} (k : String) (l : List (String × α))
    (h : (l.map Prod.fst).Nodup) : alLookup k (alErase k l) = none := by
  induction l with
  | nil => simp [alErase, alLookup]
  | cons p rest ih =>
    obtain ⟨k1, v1⟩ := p
    rw [List.map_cons, List.nodup_cons] at h
    by_cases hk : k1 = k
    · subst hk
      rw [show alErase k1 ((k1, v1) :: rest) = rest from by simp [alErase]]
      refine alLookup_eq_none_of_forall_ne _ _ ?_
      intro q hq hq1
      exact h.1 (List.mem_map.2 ⟨q, hq, hq1⟩)
    · rw [show alErase k ((k1, v1) :: rest) = (k1, v1) :: alErase k rest from by
          simp [alErase, hk]]
      simp [alLookup, hk, ih h.2]

theorem alLookup_alErase_ne {α : Type} (k k' : String) (l : List (String × α))
    (h : k' ≠ k) : alLookup k' (alErase k l) = alLookup k' l := by
  induction l with
  | nil => rfl
  | cons q rest ih =>
    obtain ⟨k1, v1⟩ := q
    by_cases hk : k1 = k
    · subst hk
      rw [show alErase k1 ((k1, v1) :: rest) = rest from by simp [alErase]]
      have hne : ¬ k1 = k' := fun hh => h hh.symm
      rw [show alLookup k' ((k1, v1) :: rest) = alLookup k' rest from by
          simp [alLookup, hne]]
    · rw [show alErase k ((k1, v1) :: rest) = (k1, v1) :: alErase k rest from by
          simp [alErase, hk]]
      by_cases hk' : k1 = k'
      · simp [alLookup, hk']
      · simp [alLookup, hk', ih]

theorem alErase_eq_nil {α : Type} (k : String) (l : List (String × α))
    (h : alErase k l = []) : l = [] ∨ ∃ v, l = [(k, v)] := by
  cases l with
  | nil => exact Or.inl rfl
  | cons q rest =>
    obtain ⟨k1, v1⟩ := q
    by_cases hk : k1 = k
    · subst hk
      rw [show alErase k1 ((k1, v1) :: rest) = rest from by simp [alErase]] at h
      exact Or.inr ⟨v1, by rw [h]⟩
    · rw [show alErase k ((k1, v1) :: rest) = (k1, v1) :: alErase k rest from by
          simp [alErase, hk]] at h
      exact absurd h (List.cons_ne_nil _ _)

theorem lookupConn_of_lookup_none (reg : Registry) (r c : String)
    (h : alLookup r reg = none) : lookupConn reg r c = none := by
  unfold lookupConn
  rw [h]

theorem lookupConn_of_lookup_some (reg : Registry) (r c : String) (table : RoomTable)
    (h : alLookup r reg = some table) : lookupConn reg r c = alLookup c table := by
  unfold lookupConn
  rw [h]

theorem mem_alSet {α : Type} (k : String) (v : α) (l : List (String × α)) (p : String × α)
    (h : p ∈ alSet k v l) : p = (k, v) ∨ p ∈ l := by
  induction l with
  | nil => simpa [alSet] using h
  | cons q rest ih =>
    obtain ⟨k1, v1⟩ := q
    by_cases hk : k1 = k
    · simp [alSet, hk] at h
      rcases h with h | h
      · exact Or.inl (by simp [h])
      · exact Or.inr (by simp [h])
    · simp [alSet, hk] at h
      rcases h with h | h
      · exact Or.inr (by simp [h])
      · rcases ih h with h' | h'
        · exact Or.inl h'
        · exact Or.inr (by simp [h'])

theorem mem_alErase {α : Type} (k : String) (l : List (String × α)) (p : String × α)
    (h : p ∈ alErase k l) : p ∈ l := by
  induction l with
  | nil => simpa [alErase] using h
  | cons q rest ih =>
    obtain ⟨k1, v1⟩ := q
    by_cases hk : k1 = k
    · simp [alErase, hk] at h
      simp [h]
    · simp [alErase, hk] at h
      rcases h with h | h
      · simp [h]
      · simp [ih h]

theorem alSet_ne_nil {α : Type} (k : String) (v : α) (l : List (String × α)) :
    alSet k v l ≠ [] := by
  cases l with
  | nil => simp [alSet]
  | cons q rest =>
    obtain ⟨k1, v1⟩ := q
    by_cases hk : k1 = k <;> simp [alSet, hk]

theorem alLookup_mem {α : Type} (k : String) (v : α) (l : List (String × α))
    (h : alLookup k l = some v) : (k, v) ∈ l := by
  induction l with
  | nil => simp [alLookup] at h
  | cons q rest ih =>
    obtain ⟨k1, v1⟩ := q
    by_cases hk : k1 = k
    · subst hk
      simp [alLookup] at h
      simp [h]
    · simp [alLookup, hk] at h
      simp [ih h]

theorem mem_keys_alSet {α : Type} (k : String) (v : α) (l : List (String × α)) (x : String)
    (h : x ∈ (alSet k v l).map Prod.fst) : x = k ∨ x ∈ l.map Prod.fst := by
  rcases List.mem_map.1 h with ⟨p, hp, hx⟩
  rcases mem_alSet k v l p hp with h' | h'
  · left
    rw [← hx, h']
  · right
    rw [← hx]
    exact List.mem_map_of_mem Prod.fst h'

theorem nodup_keys_alSet {α : Type} (k : String) (v : α) (l : List (String × α))
    (h : (l.map Prod.fst).Nodup) : ((alSet k v l).map Prod.fst).Nodup := by
  induction l with
  | nil => simp [alSet]
  | cons q rest ih =>
    obtain ⟨k1, v1⟩ := q
    rw [List.map_cons, List.nodup_cons] at h
    by_cases hk : k1 = k
    · subst hk
      rw [show alSet k1 v ((k1, v1) :: rest) = (k1, v) :: rest from by simp [alSet],
        List.map_cons, List.nodup_cons]
      exact h
    · rw [show alSet k v ((k1, v1) :: rest) = (k1, v1) :: alSet k v rest from by
          simp [alSet, hk],
        List.map_cons, List.nodup_cons]
      refine ⟨?_, ih h.2⟩
      intro hmem
      rcases mem_keys_alSet k v rest k1 hmem with h' | h'
      · exact hk h'
      · exact h.1 h'

/-! Helper lemmas about the descending sort used by `db_load_history`. -/

theorem insertDesc_of_lt (m : StoredMsg) (l : List StoredMsg)
    (h : ∀ x ∈ l, m.created_at < x.created_at) : insertDesc m l = l ++ [m] := by
  induction l with
  | nil => simp [insertDesc]
  | cons x xs ih =>
    have hx : ¬ x.created_at ≤ m.created_at := by
      have := h x (by simp)
      omega
    rw [show insertDesc m (x :: xs) = x :: insertDesc m xs from by simp [insertDesc, hx]]
    rw [ih fun y hy => h y (by simp [hy])]
    simp

theorem sortDesc_of_pairwise (l : List StoredMsg)
    (h : l.Pairwise (fun a b => a.created_at < b.created_at)) : sortDesc l = l.reverse := by
  induction l with
  | nil => simp [sortDesc]
  | cons x xs ih =>
    rw [List.pairwise_cons] at h
    rw [show sortDesc (x :: xs) = insertDesc x (sortDesc xs) from rfl, ih h.2,
      List.reverse_cons]
    exact insertDesc_of_lt x xs.reverse fun y hy => h.1 y (List.mem_reverse.1 hy)

/-- The way a session exits depends only on the frame stream, never on the
database oracle, the world state, or the identifiers. -/
theorem sessionLoop_exit_const (frames : List Frame) :
    ∀ (env env' : DbEnv) (ws ws' : Nat) (r r' c c' : String) (w w' : World),
      (sessionLoop env ws r c frames w).2 = (sessionLoop env' ws' r' c' frames w').2 := by
  induction frames with
  | nil =>
    intro env env' ws ws' r r' c c' w w'
    rfl
  | cons f rest ih =>
    intro env env' ws ws' r r' c c' w w'
    cases f with
    | malformed => rfl
    | obj m => exact ih env env' ws ws' r r' c c' _ _

/-- In a member table whose handles all differ from `ws`, registering `ws`
under key `c` makes `(c, ws)` the unique entry holding handle `ws`. -/
theorem filter_handle_alSet (t : RoomTable) (c : String) (ws : Nat)
    (h : ∀ kv ∈ t, kv.2 ≠ ws) :
    (alSet c ws t).filter (fun kv => decide (kv.2 = ws)) = [(c, ws)] := by
  induction t with
  | nil => simp [alSet]
  | cons q rest ih =>
    obtain ⟨k1, v1⟩ := q
    have h1 : v1 ≠ ws := h (k1, v1) (by simp)
    by_cases hk : k1 = c
    · subst hk
      rw [show alSet k1 ws ((k1, v1) :: rest) = (k1, ws) :: rest from by simp [alSet]]
      rw [List.filter_cons_of_pos (by simp)]
      have hnil : rest.filter (fun kv => decide (kv.2 = ws)) = [] := by
        rw [List.filter_eq_nil_iff]
        intro kv hkv
        simpa using h kv (by simp [hkv])
      rw [hnil]
    · rw [show alSet c ws ((k1, v1) :: rest) = (k1, v1) :: alSet c ws rest from by
          simp [alSet, hk]]
      rw [List.filter_cons_of_neg (by simpa using h1)]
      exact ih fun kv hkv => h kv (by simp [hkv])

/-! Helper lemmas about the router and the registry operations. -/

theorem mem_alSet_self {α : Type} (k : String) (v : α) (l : List (String × α)) :
    (k, v) ∈ alSet k v l := by
  induction l with
  | nil => simp [alSet]
  | cons q rest ih =>
    obtain ⟨k1, v1⟩ := q
    by_cases hk : k1 = k <;> simp [alSet, hk, ih]

/-- Full characterization of the router on a `cipher` frame. -/
theorem routeFrame_cipher_eq (env : DbEnv) (ws : Nat) (r c : String) (m : Msg) (w : World)
    (hm : m.type = some "cipher") :
    routeFrame env ws r c m w =
      { reg := w.reg,
        db := if probeEffective (env w.dbCalls) then
            db_save_message w.db r m.sender m.to_id (m.msg_type.getD "unknown") m.iv m.ciphertext
          else w.db,
        outbox := w.outbox ++
          (match m.to_id with
            | some t =>
              match lookupConn w.reg r t with
              | some sock => [(sock, OutMsg.forward m)]
              | none => []
            | none => []),
        closes := w.closes,
        dbCalls := w.dbCalls + 1 } := by
  have hpk : ¬ m.type = some "pubkey" := by rw [hm]; decide
  simp only [routeFrame, if_neg hpk, if_pos hm]
  cases hb : probeEffective (env w.dbCalls)
  · cases hto : m.to_id with
    | none => simp [hb]
    | some t =>
      cases hl : lookupConn w.reg r t <;> simp [hb, hl]
  · cases hto : m.to_id with
    | none => simp [hb]
    | some t =>
      cases hl : lookupConn w.reg r t <;> simp [hb, hl]

/-- Full characterization of the router on a `pubkey` frame. -/
theorem routeFrame_pubkey_eq (env : DbEnv) (ws : Nat) (r c : String) (m : Msg) (w : World)
    (hm : m.type = some "pubkey") :
    routeFrame env ws r c m w =
      { w with outbox := w.outbox ++
          (match m.to_id with
            | some t =>
              match lookupConn w.reg r t with
              | some sock => [(sock, OutMsg.forward m)]
              | none => []
            | none => []) } := by
  simp only [routeFrame, if_pos hm]
  cases hto : m.to_id with
  | none => simp
  | some t =>
    cases hl : lookupConn w.reg r t <;> simp [hl]

/-- Claim C1: a `cipher` frame handled in the Joined state is best-effort
persisted with a fresh identifier and a server-assigned (latest) timestamp
regardless of the target's liveness, the registry is untouched, and
independently the original payload is forwarded verbatim to the target's
connection exactly when the target client id is registered in the sender's
room; an offline target's message is persisted but not forwarded. -/
theorem C1_cipher_persist_and_forward (env : DbEnv) (ws : Nat) (room_id client_id : String)
    (m : Msg) (w : World) (hm : m.type = some "cipher") (hfresh : IdsFresh w.db) :
    cipherBehaviour env ws room_id client_id m w := by
  unfold cipherBehaviour
  rw [routeFrame_cipher_eq env ws room_id client_id m w hm]
  refine ⟨?_, ?_, rfl, ?_, ?_, ?_⟩
  · intro hp
    refine ⟨by simp [hp, db_save_message, savedRow], by simp [hp, db_save_message], ?_⟩
    intro s hs
    rcases hfresh s hs with ⟨h1, h2⟩
    exact ⟨by simpa [savedRow] using Nat.ne_of_lt h1, by simpa [savedRow] using h2⟩
  · intro hp
    simp [hp]
  · intro t sock hto hsock
    simp [hto, hsock]
  · intro t hto hsock
    simp [hto, hsock]
  · intro hto
    simp [hto]

/-- Claim C1 witness: a concrete cipher frame from A to live B in room R1,
with a healthy database. -/
theorem C1_witness :
    cipherAB.type = some "cipher" ∧ IdsFresh W1.db
      ∧ cipherBehaviour envOk 0 "R1" "A" cipherAB W1 :=
  ⟨rfl, by decide, C1_cipher_persist_and_forward envOk 0 "R1" "A" cipherAB W1 rfl (by decide)⟩

/-- Claim C2: history load for client X in room R returns exactly the stored
messages of R that are broadcast (receiver absent), addressed to X, or sent
by X; it keeps the most recent `limit` of them by creation order and returns
them oldest first, capped at `limit` entries even when more qualify. -/
theorem C2_history_load (table : List StoredMsg) (room_id client_id : String) (limit : Nat)
    (hasc : CreatedAsc table) : historyLoadSpec table room_id client_id limit := by
  have hq : CreatedAsc (qualifying table room_id client_id) :=
    List.Pairwise.sublist (List.filter_sublist table) hasc
  have hsort : sortDesc (table.filter (fun m => decide (msgQualifies room_id client_id m)))
      = (table.filter (fun m => decide (msgQualifies room_id client_id m))).reverse :=
    sortDesc_of_pairwise _ hq
  have hmain : db_load_history table room_id client_id limit
      = (lastN limit (qualifying table room_id client_id)).map toEntry := by
    simp only [db_load_history]
    rw [hsort]
    rfl
  have hsuf : (lastN limit (qualifying table room_id client_id)).IsSuffix
      (qualifying table room_id client_id) := by
    refine ⟨((qualifying table room_id client_id).reverse.drop limit).reverse, ?_⟩
    show ((qualifying table room_id client_id).reverse.drop limit).reverse
        ++ ((qualifying table room_id client_id).reverse.take limit).reverse
        = qualifying table room_id client_id
    rw [← List.reverse_append, List.take_append_drop, List.reverse_reverse]
  refine ⟨hmain, hsuf, ?_, List.Pairwise.sublist hsuf.sublist hq⟩
  rw [hmain]
  simp [lastN]

/-- Claim C2 witness: the sample table, requesting client X with limit 1, so
two rows qualify and the cap bites. -/
theorem C2_witness :
    CreatedAsc sampleTable ∧ historyLoadSpec sampleTable "R1" "X" 1 :=
  ⟨by decide, C2_history_load sampleTable "R1" "X" 1 (by decide)⟩

/-- The `finally` cleanup is a no-op whenever either assigned identifier is
falsy (`None` or empty). -/
theorem cleanup_falsy (reg : Registry) (a b : Option String)
    (h : truthy a = false ∨ truthy b = false) : cleanup reg a b = reg := by
  cases a with
  | none => rfl
  | some r =>
    cases b with
    | none => rfl
    | some c =>
      have hc : (truthy (some r) && truthy (some c)) = false := by
        rcases h with h | h <;> simp [h]
      unfold cleanup
      simp [hc]

/-- Any invalid first frame that parses as an object reduces the whole session
to the policy close: only `closes` changes. -/
theorem ws_endpoint_invalid (env : DbEnv) (ws : Nat) (hello : Msg) (rest : List Frame)
    (w : World)
    (hbad : hello.type ≠ some "join"
      ∨ truthy hello.room = false ∨ truthy hello.client_id = false) :
    ws_endpoint env ws (Frame.obj hello :: rest) w
      = ({ w with closes := w.closes ++ [(ws, 1008)] }, ExitKind.policyClosed) := by
  by_cases hty : hello.type = some "join"
  · have htr : truthy hello.room = false ∨ truthy hello.client_id = false := by
      rcases hbad with h | h | h
      · exact absurd hty h
      · exact Or.inl h
      · exact Or.inr h
    have hcond : (truthy hello.room && truthy hello.client_id) = false := by
      rcases htr with h | h <;> simp [h]
    have h1 : ¬ hello.type ≠ some "join" := fun hne => hne hty
    simp only [ws_endpoint]
    rw [if_neg h1, if_neg (by simp [hcond] : ¬ (truthy hello.room && truthy hello.client_id) = true)]
    rw [cleanup_falsy w.reg hello.room hello.client_id htr]
  · simp only [ws_endpoint]
    rw [if_pos hty]
    rfl

/-- Claim C3: a first frame whose tag is not `join`, or a join frame with a
missing or empty room or client id, closes the connection with the
policy-violation code 1008 and registers no state: the registry, database and
outbox are untouched, later frames are never examined, and any pair absent
from the registry before stays absent. -/
theorem C3_invalid_join (env : DbEnv) (ws : Nat) (hello : Msg) (rest : List Frame) (w : World)
    (hbad : hello.type ≠ some "join"
      ∨ truthy hello.room = false ∨ truthy hello.client_id = false) :
    invalidJoinSpec env ws hello rest w := by
  have he := ws_endpoint_invalid env ws hello rest w hbad
  unfold invalidJoinSpec
  rw [he]
  refine ⟨rfl, rfl, rfl, rfl, rfl, ?_, ?_⟩
  · intro rest'
    rw [ws_endpoint_invalid env ws hello rest' w hbad]
  · intro r c h
    exact h

/-- Claim C3 witness: a first frame tagged `ping` instead of `join`, on a
world with two live members. -/
theorem C3_witness :
    (helloBadTag.type ≠ some "join"
      ∨ truthy helloBadTag.room = false ∨ truthy helloBadTag.client_id = false)
    ∧ invalidJoinSpec envOk 3 helloBadTag [] W1 :=
  ⟨by decide, C3_invalid_join envOk 3 helloBadTag [] W1 (by decide)⟩

/-- The exit-path cleanup with both identifiers assigned, written without the
surrounding match. -/
theorem cleanup_some (reg : Registry) (r c : String) :
    cleanup reg (some r) (some c)
      = if truthy (some r) && truthy (some c) then
          match alLookup r reg with
          | some table =>
            if (alErase c table).isEmpty then alErase r reg
            else alSet r (alErase c table) reg
          | none => reg
        else reg := rfl

/-- Registration written as its two dict operations. -/
theorem registerConn_eq (reg : Registry) (r c : String) (hdl : Nat) :
    registerConn reg r c hdl = alSet r (alSet c hdl ((alLookup r reg).getD [])) reg := rfl

/-- Claim C5: a `pubkey` frame handled in the Joined state consumes no
database occasion and persists nothing, and the entire inbound payload is
forwarded verbatim to the target's connection exactly when the `to` client id
is registered in the sender's room; otherwise it is silently dropped. -/
theorem C5_pubkey_relay (env : DbEnv) (ws : Nat) (room_id client_id : String) (m : Msg)
    (w : World) (hm : m.type = some "pubkey") :
    pubkeyBehaviour env ws room_id client_id m w := by
  unfold pubkeyBehaviour
  rw [routeFrame_pubkey_eq env ws room_id client_id m w hm]
  refine ⟨rfl, rfl, rfl, rfl, ?_, ?_, ?_⟩
  · intro t sock hto hsock
    simp [hto, hsock]
  · intro t hto hsock
    simp [hto, hsock]
  · intro hto
    simp [hto]

/-- Claim C5 witness: a concrete pubkey frame from A to live B in room R1. -/
theorem C5_witness :
    pubkeyAB.type = some "pubkey" ∧ pubkeyBehaviour envOk 0 "R1" "A" pubkeyAB W1 :=
  ⟨rfl, C5_pubkey_relay envOk 0 "R1" "A" pubkeyAB W1 rfl⟩

/-- Claim C10: a `cipher` frame with no `to` key is forwarded to no connection
at all — not even the sender — while being best-effort persisted with an
absent receiver, so the row qualifies for every requesting client of the room
in a later history load. -/
theorem C10_broadcast_cipher (env : DbEnv) (ws : Nat) (room_id client_id : String) (m : Msg)
    (w : World) (hm : m.type = some "cipher") (hto : m.to_id = none) :
    broadcastCipherSpec env ws room_id client_id m w := by
  unfold broadcastCipherSpec
  rw [routeFrame_cipher_eq env ws room_id client_id m w hm]
  refine ⟨by simp [hto], ?_, ?_⟩
  · intro hp
    refine ⟨by simp [hp, db_save_message, savedRow], by simp [savedRow, hto], ?_⟩
    intro x
    unfold msgQualifies savedRow
    simp [hto]
  · intro hp
    simp [hp]

/-- Claim C10 witness: a concrete broadcast cipher frame from A in R1 with a
healthy database. -/
theorem C10_witness :
    cipherBroadcast.type = some "cipher" ∧ cipherBroadcast.to_id = none
      ∧ broadcastCipherSpec envOk 0 "R1" "A" cipherBroadcast W1 :=
  ⟨rfl, rfl, C10_broadcast_cipher envOk 0 "R1" "A" cipherBroadcast W1 rfl rfl⟩

/-- Claim C8 counterexample: at the concrete input of a malformed first frame
the session ends through the generic error handler and the server records no
close call at all, while a wrong-tag first frame does close with 1008 — a
malformed first frame is NOT closed with the policy-violation code. -/
theorem C8_counterexample :
    (ws_endpoint envOk 7 [Frame.malformed] W0).1.closes = []
  ∧ (ws_endpoint envOk 7 [Frame.malformed] W0).2 = ExitKind.wsError
  ∧ (ws_endpoint envOk 7 [Frame.obj helloBadTag] W0).1.closes = [(7, 1008)] := by
  refine ⟨rfl, rfl, ?_⟩
  decide

/-- Claim C8 (amended): a session whose first inbound frame is not parseable
as a JSON object terminates through the generic exception handler with the
world unchanged: no state is registered and no close frame is recorded (in
particular not the 1008 policy close that a wrong tag or missing join fields
produce); later frames are never examined. -/
theorem C8_malformed_first_frame (env : DbEnv) (ws : Nat) (rest : List Frame) (w : World) :
    ws_endpoint env ws (Frame.malformed :: rest) w = (w, ExitKind.wsError) := rfl

/-- Cleanup when the room is absent from the registry: a no-op. -/
theorem cleanup_lookup_none (reg : Registry) (r c : String)
    (h : alLookup r reg = none) : cleanup reg (some r) (some c) = reg := by
  rw [cleanup_some, h]
  split <;> rfl

/-- Cleanup when the room is present, with the looked-up table exposed. -/
theorem cleanup_lookup_some (reg : Registry) (r c : String) (table : RoomTable)
    (h : alLookup r reg = some table) :
    cleanup reg (some r) (some c)
      = if truthy (some r) && truthy (some c) then
          (if (alErase c table).isEmpty then alErase r reg
           else alSet r (alErase c table) reg)
        else reg := by
  rw [cleanup_some, h]

/-- Claim C6: the registry keeps the room-nonempty invariant under both
registration and the exit path; a room table is created on the first join
into it; removing an absent pair is a no-op; removing the last member removes
the room entry itself; and in every case the exit path removes exactly the
departing (room, client) mapping — it disappears even when other members
remain in the room, while every other mapping of that room and of every other
room is preserved. -/
theorem C6_registry_lifecycle (reg : Registry) (r c : String) (hdl : Nat)
    (hgood : regGood reg) (hwf : regWF reg) : registryGcSpec reg r c hdl := by
  refine ⟨?_, ?_, ?_, ?_, ?_, ?_, ?_⟩
  · intro p hp
    rw [registerConn_eq] at hp
    rcases mem_alSet _ _ _ _ hp with h | h
    · rw [h]
      exact alSet_ne_nil _ _ _
    · exact hgood p h
  · intro a b
    cases a with
    | none => exact hgood
    | some r' =>
      cases b with
      | none => exact hgood
      | some c' =>
        cases hlk : alLookup r' reg with
        | none =>
          rw [cleanup_lookup_none reg r' c' hlk]
          exact hgood
        | some table =>
          rw [cleanup_lookup_some reg r' c' table hlk]
          by_cases htr : (truthy (some r') && truthy (some c')) = true
          · rw [if_pos htr]
            by_cases hemp : (alErase c' table).isEmpty = true
            · rw [if_pos hemp]
              intro p hp
              exact hgood p (mem_alErase _ _ _ hp)
            · rw [if_neg hemp]
              intro p hp
              rcases mem_alSet _ _ _ _ hp with h | h
              · rw [h]
                intro hnil
                apply hemp
                rw [show alErase c' table = [] from hnil]
                rfl
              · exact hgood p h
          · rw [if_neg htr]
            exact hgood
  · intro hnone
    rw [registerConn_eq, hnone]
    exact alLookup_alSet_self _ _ _
  · intro hnone
    exact cleanup_lookup_none reg r c hnone
  · intro table hlk hnc
    rw [cleanup_lookup_some reg r c table hlk]
    have her : alErase c table = table := alErase_of_forall_ne c table hnc
    have hne : table ≠ [] := hgood (r, table) (alLookup_mem _ _ _ hlk)
    have hemp : table.isEmpty = false := by
      cases table with
      | nil => exact absurd rfl hne
      | cons x xs => rfl
    rw [her]
    have hnotemp : ¬ table.isEmpty = true := by
      rw [hemp]
      exact Bool.false_ne_true
    rw [if_neg hnotemp, alSet_of_lookup_eq r table reg hlk, ite_self]
  · intro hr hc hlk
    rw [cleanup_lookup_some reg r c [(c, hdl)] hlk]
    have htr : (truthy (some r) && truthy (some c)) = true := by
      show (!(decide (r = "")) && !(decide (c = ""))) = true
      rw [decide_eq_false hr, decide_eq_false hc]
      rfl
    rw [if_pos htr]
    rw [show alErase c [(c, hdl)] = [] from by simp [alErase]]
    simp only [List.isEmpty_nil, if_true]
    exact alLookup_alErase_self r reg hwf.1
  · intro hr hc
    have htr : (truthy (some r) && truthy (some c)) = true := by
      show (!(decide (r = "")) && !(decide (c = ""))) = true
      rw [decide_eq_false hr, decide_eq_false hc]
      rfl
    cases hlk : alLookup r reg with
    | none =>
      rw [cleanup_lookup_none reg r c hlk]
      exact ⟨lookupConn_of_lookup_none reg r c hlk, fun c' _ => rfl, fun r' c' _ => rfl⟩
    | some table =>
      have htnd : (table.map Prod.fst).Nodup := hwf.2 (r, table) (alLookup_mem _ _ _ hlk)
      rw [cleanup_lookup_some reg r c table hlk, if_pos htr]
      by_cases hemp : (alErase c table).isEmpty = true
      · rw [if_pos hemp]
        have hnil : alErase c table = [] := by
          cases he : alErase c table with
          | nil => rfl
          | cons x xs =>
            rw [he] at hemp
            simp at hemp
        have halt : ∀ c', c' ≠ c → alLookup c' table = none := by
          intro c' hc'
          rcases alErase_eq_nil c table hnil with h | ⟨v, h⟩
          · rw [h]
            rfl
          · have hcc : ¬ c = c' := fun hh => hc' hh.symm
            rw [h]
            simp [alLookup, hcc]
        refine ⟨?_, ?_, ?_⟩
        · exact lookupConn_of_lookup_none _ r c (alLookup_alErase_self r reg hwf.1)
        · intro c' hc'
          rw [lookupConn_of_lookup_none _ r c' (alLookup_alErase_self r reg hwf.1),
            lookupConn_of_lookup_some reg r c' table hlk]
          exact (halt c' hc').symm
        · intro r' c' hr'
          unfold lookupConn
          rw [alLookup_alErase_ne r r' reg hr']
      · rw [if_neg hemp]
        refine ⟨?_, ?_, ?_⟩
        · rw [lookupConn_of_lookup_some _ r c _
            (alLookup_alSet_self r (alErase c table) reg)]
          exact alLookup_alErase_self c table htnd
        · intro c' hc'
          rw [lookupConn_of_lookup_some _ r c' _
              (alLookup_alSet_self r (alErase c table) reg),
            lookupConn_of_lookup_some reg r c' table hlk]
          exact alLookup_alErase_ne c c' table hc'
        · intro r' c' hr'
          unfold lookupConn
          rw [alLookup_alSet_ne r r' (alErase c table) reg hr']

/-- Claim C6 witness: the two-member room R1 registry, registering B's handle
and cleaning up pairs of R1. -/
theorem C6_witness :
    regGood regR1 ∧ regWF regR1 ∧ registryGcSpec regR1 "R1" "B" 7 :=
  ⟨by decide, by decide, C6_registry_lifecycle regR1 "R1" "B" 7 (by decide) (by decide)⟩

/-- Claim C9: the exit path removes whatever handle is currently mapped for
its (room, client) pair without comparing it to the handle this session
registered: after a second join overwrites the handle, the first session's
cleanup deregisters the second session's live connection, which disappears
from the registry while still open. -/
theorem C9_stale_cleanup (reg : Registry) (r c : String) (h1 h2 : Nat)
    (hr : r ≠ "") (hc : c ≠ "") (hwf : regWF reg) : staleCleanupSpec reg r c h1 h2 := by
  have hT1 : (alLookup r (registerConn reg r c h1)).getD []
      = alSet c h1 ((alLookup r reg).getD []) := by
    rw [registerConn_eq, alLookup_alSet_self]
    rfl
  have e2 : registerConn (registerConn reg r c h1) r c h2
      = alSet r (alSet c h2 (alSet c h1 ((alLookup r reg).getD [])))
          (registerConn reg r c h1) := by
    rw [registerConn_eq (registerConn reg r c h1) r c h2, hT1]
  have hlk2 : alLookup r (registerConn (registerConn reg r c h1) r c h2)
      = some (alSet c h2 (alSet c h1 ((alLookup r reg).getD []))) := by
    rw [e2]
    exact alLookup_alSet_self _ _ _
  have ht0nd : (((alLookup r reg).getD []).map Prod.fst).Nodup := by
    cases hlk : alLookup r reg with
    | none => simp
    | some table => exact hwf.2 (r, table) (alLookup_mem _ _ _ hlk)
  have hXnd : ((alSet c h2 (alSet c h1 ((alLookup r reg).getD []))).map Prod.fst).Nodup :=
    nodup_keys_alSet _ _ _ (nodup_keys_alSet _ _ _ ht0nd)
  have htr : (truthy (some r) && truthy (some c)) = true := by
    show (!(decide (r = "")) && !(decide (c = ""))) = true
    rw [decide_eq_false hr, decide_eq_false hc]
    rfl
  constructor
  · unfold lookupConn
    rw [hlk2]
    exact alLookup_alSet_self _ _ _
  · unfold lookupConn
    rw [cleanup_lookup_some _ _ _ _ hlk2, if_pos htr]
    by_cases hemp :
        (alErase c (alSet c h2 (alSet c h1 ((alLookup r reg).getD [])))).isEmpty = true
    · rw [if_pos hemp]
      have hregnd : ((registerConn (registerConn reg r c h1) r c h2).map Prod.fst).Nodup := by
        rw [e2]
        refine nodup_keys_alSet _ _ _ ?_
        rw [registerConn_eq]
        exact nodup_keys_alSet _ _ _ hwf.1
      rw [alLookup_alErase_self r _ hregnd]
    · rw [if_neg hemp, alLookup_alSet_self]
      exact alLookup_alErase_self c _ hXnd

/-- Claim C9 witness: two sessions of client A in room R1 with handles 1 and
2, starting from the empty registry. -/
theorem C9_witness :
    ("R1" : String) ≠ "" ∧ ("A" : String) ≠ "" ∧ regWF ([] : Registry)
      ∧ staleCleanupSpec [] "R1" "A" 1 2 :=
  ⟨by decide, by decide, by decide,
    C9_stale_cleanup [] "R1" "A" 1 2 (by decide) (by decide) (by decide)⟩

/-- The way a whole session exits never depends on the database oracle. -/
theorem ws_endpoint_exit_const (env env2 : DbEnv) (ws : Nat) (frames : List Frame)
    (w : World) : (ws_endpoint env ws frames w).2 = (ws_endpoint env2 ws frames w).2 := by
  cases frames with
  | nil => rfl
  | cons f rest =>
    cases f with
    | malformed => rfl
    | obj hello =>
      simp only [ws_endpoint]
      by_cases hty : hello.type ≠ some "join"
      · rw [if_pos hty, if_pos hty]
      · rw [if_neg hty, if_neg hty]
        by_cases htr : (truthy hello.room && truthy hello.client_id) = true
        · rw [if_pos htr, if_pos htr]
          cases hello.room with
          | none => rfl
          | some rr =>
            cases hello.client_id with
            | none => rfl
            | some cc =>
              exact sessionLoop_exit_const rest env env2 ws ws rr rr cc cc _ _
        · rw [if_neg htr, if_neg htr]

/-- Claim C7: when the storage probe fails (or the guarded operation raises)
at every occasion, a session continues unaffected: a join still registers the
connection and still sends `joined`, the roster broadcast, and a `history`
event carrying the empty list, with the database untouched; a `cipher` frame
is not recorded but still forwarded to a live target; and the exit of any
session is independent of the database oracle. -/
theorem C7_storage_failure (env env2 : DbEnv) (ws : Nat) (r c : String) (m : Msg)
    (frames : List Frame) (w : World)
    (hfail : ∀ n, probeEffective (env n) = false) (hm : m.type = some "cipher") :
    storageFailureSpec env env2 ws r c m frames w := by
  unfold storageFailureSpec
  refine ⟨?_, ?_, ?_, ?_, ?_, ?_⟩
  · simp [joinPhase, hfail]
  · simp [joinPhase, hfail]
  · simp [joinPhase, hfail]
  · rw [routeFrame_cipher_eq env ws r c m w hm]
    simp [hfail]
  · intro t sock hto hsock
    rw [routeFrame_cipher_eq env ws r c m w hm]
    simp [hto, hsock]
  · exact ws_endpoint_exit_const env env2 ws frames w

/-- Claim C7 witness: the always-failing oracle against the healthy one, a
valid join frame and a concrete cipher frame in room R1. -/
theorem C7_witness :
    (∀ n, probeEffective (envDown n) = false) ∧ cipherAB.type = some "cipher"
      ∧ storageFailureSpec envDown envOk 0 "R1" "A" cipherAB [Frame.obj helloA] W1 :=
  ⟨fun _ => rfl, rfl,
    C7_storage_failure envDown envOk 0 "R1" "A" cipherAB [Frame.obj helloA] W1
      (fun _ => rfl) rfl⟩

/-- Claim C4: a valid join of client C into room R registers the connection,
then sends `joined` to C, then a `roster` event carrying the full member list
to every currently-registered connection of R (including C), then a single
`history` event to C only; C's first three outbound events are `joined`,
`roster`, `history`. -/
theorem C4_join_sequence (env : DbEnv) (ws : Nat) (r c : String) (hello : Msg)
    (rest : List Frame) (w : World)
    (htype : hello.type = some "join") (hroom : hello.room = some r)
    (hcid : hello.client_id = some c) (hr : r ≠ "") (hc : c ≠ "")
    (hout : w.outbox = [])
    (hfresh : ∀ kv ∈ (alLookup r w.reg).getD [], kv.2 ≠ ws) :
    joinSequenceSpec env ws r c hello rest w := by
  have htab : (alLookup r (registerConn w.reg r c ws)).getD []
      = alSet c ws ((alLookup r w.reg).getD []) := by
    rw [registerConn_eq, alLookup_alSet_self]
    rfl
  have hOB : (joinPhase env ws r c w).outbox
      = (ws, OutMsg.joined r c)
        :: ((alSet c ws ((alLookup r w.reg).getD [])).map
              (fun kv => (kv.2,
                OutMsg.roster r ((alSet c ws ((alLookup r w.reg).getD [])).map Prod.fst)))
          ++ [(ws, OutMsg.history r
                (if probeEffective (env (w.dbCalls + 1)) then
                  db_load_history
                    (if probeEffective (env w.dbCalls) then
                      db_upsert_user_room_membership w.db r c
                    else w.db).messages r c 50
                else []))]) := by
    simp only [joinPhase, hout, htab, List.nil_append, List.append_assoc,
      List.singleton_append, List.cons_append]
  unfold joinSequenceSpec
  refine ⟨?_, mem_alSet_self c ws _, ?_, ?_⟩
  · show lookupConn (registerConn w.reg r c ws) r c = some ws
    unfold lookupConn
    rw [registerConn_eq, alLookup_alSet_self]
    exact alLookup_alSet_self _ _ _
  · refine ⟨(if probeEffective (env (w.dbCalls + 1)) then
        db_load_history
          (if probeEffective (env w.dbCalls) then
            db_upsert_user_room_membership w.db r c
          else w.db).messages r c 50
      else []), ?_, ?_, ?_, ?_⟩
    · rw [hOB]
    · intro kv hkv
      rw [hOB]
      apply List.mem_cons_of_mem
      apply List.mem_append_left
      exact List.mem_map_of_mem _ hkv
    · rw [hOB]
      rw [List.filter_cons_of_pos (by simp)]
      rw [List.filter_append]
      rw [List.filter_map]
      rw [show ((fun p : Nat × OutMsg => decide (p.1 = ws)) ∘
          (fun kv : String × Nat => (kv.2,
            OutMsg.roster r ((alSet c ws ((alLookup r w.reg).getD [])).map Prod.fst))))
          = fun kv : String × Nat => decide (kv.2 = ws) from rfl]
      rw [filter_handle_alSet ((alLookup r w.reg).getD []) c ws hfresh]
      simp
    · rw [hOB]
      rw [List.filter_cons_of_neg (by simp [OutMsg.isHistory])]
      rw [List.filter_append]
      rw [show (((alSet c ws ((alLookup r w.reg).getD [])).map
            (fun kv => (kv.2,
              OutMsg.roster r ((alSet c ws ((alLookup r w.reg).getD [])).map Prod.fst)))).filter
            (fun p => (p.2).isHistory)) = [] from by
          rw [List.filter_eq_nil_iff]
          intro a ha
          rcases List.mem_map.1 ha with ⟨kv, hkv, hae⟩
          rw [← hae]
          simp [OutMsg.isHistory]]
      simp [OutMsg.isHistory]
  · have hty' : ¬ hello.type ≠ some "join" := fun hne => hne htype
    have htr : (truthy hello.room && truthy hello.client_id) = true := by
      rw [hroom, hcid]
      show (!(decide (r = "")) && !(decide (c = ""))) = true
      rw [decide_eq_false hr, decide_eq_false hc]
      rfl
    simp only [ws_endpoint]
    rw [if_neg hty', if_pos htr, hroom, hcid]

/-- Claim C4 witness: A joining R1 on a fresh world with handle 1. -/
theorem C4_witness :
    helloA.type = some "join" ∧ helloA.room = some "R1" ∧ helloA.client_id = some "A"
      ∧ ("R1" : String) ≠ "" ∧ ("A" : String) ≠ "" ∧ W0.outbox = []
      ∧ (∀ kv ∈ (alLookup "R1" W0.reg).getD [], kv.2 ≠ 1)
      ∧ joinSequenceSpec envOk 1 "R1" "A" helloA [] W0 :=
  ⟨rfl, rfl, rfl, by decide, by decide, rfl, by decide,
    C4_join_sequence envOk 1 "R1" "A" helloA [] W0 rfl rfl rfl (by decide) (by decide)
      rfl (by decide)⟩
